import Mathlib

/-!
Verification development for the manuscript-chat service
(`src/services/geminiService.ts`).  Texts are modelled as `List Char`;
TypeScript string operations (`substring`, `indexOf`, `trim`, `split`,
`includes`, `toLowerCase`) are given shallow embeddings below, and each
component of the service (chunker, retriever, rate limiter, chat session,
extraction orchestrator, chat prompt assembly) is translated into an
executable Lean definition.  External effects (the PDF library, the LLM
completion API, `JSON.parse`, the wall clock) are supplied as explicit
oracle parameters, so every function is pure and runs on concrete inputs.
-/

namespace Sanctuary

/-- Convert a Lean string literal to the `List Char` text representation. -/
def str (s : String) : List Char := s.data

/-- The character `{` (code 123), kept as a named constant. -/
def lbrace : Char := Char.ofNat 123

/-- The character `}` (code 125), kept as a named constant. -/
def rbrace : Char := Char.ofNat 125

/-- Whitespace as recognised by JavaScript `String.prototype.trim`
(ASCII whitespace, NBSP, BOM, line/paragraph separators; the remaining
Unicode `Zs` code points are omitted -- none of the texts in this
development contain them). -/
def isJsWhitespace (c : Char) : Bool :=
  c = ' ' || c = '\t' || c = '\n' || c = '\r' ||
  c = Char.ofNat 11 || c = Char.ofNat 12 ||
  c = Char.ofNat 0xA0 || c = Char.ofNat 0xFEFF ||
  c = Char.ofNat 0x2028 || c = Char.ofNat 0x2029

/-- Length of `s` after JavaScript `trim()` (leading and trailing
whitespace removed). -/
def trimmedLen (s : List Char) : Nat :=
  ((s.dropWhile isJsWhitespace).reverse.dropWhile isJsWhitespace).length

/-- JavaScript `toLowerCase` restricted to the alphabets that actually
occur in the service's string literals (ASCII; Arabic letters are fixed
points of lower-casing, as in JS). -/
def lowerList (s : List Char) : List Char := s.map Char.toLower

/-- Split on runs of whitespace, dropping empty tokens, as
`split(/\s+/)` does up to empty-edge tokens (those are removed by the
length filter applied at every use site). -/
def splitWs (s : List Char) : List (List Char) :=
  (s.splitOnP isJsWhitespace).filter (fun w => !w.isEmpty)

/-- JavaScript `haystack.includes(needle)`: `needle` occurs contiguously
inside `haystack`. -/
def strContains (hay needle : List Char) : Bool :=
  (List.range (hay.length + 1)).any
    (fun i => decide ((hay.drop i).take needle.length = needle))

/-- Index of the first occurrence of `c` (JS `indexOf`, with `none` for
`-1`). -/
def idxFirst : List Char → Char → Option Nat
  | [], _ => none
  | x :: xs, c => if x = c then some 0 else (idxFirst xs c).map (fun k => k + 1)

/-- Index of the last occurrence of `c` (JS `lastIndexOf`, with `none`
for `-1`). -/
def idxLast (s : List Char) (c : Char) : Option Nat :=
  (idxFirst s.reverse c).map (fun k => s.length - 1 - k)

/-- JavaScript `String.prototype.substring a b`: both arguments are
clamped to the string length and then swapped if out of order; the
half-open slice between them is returned. -/
def jsSubstring (s : List Char) (a b : Nat) : List Char :=
  (s.drop (min (min a s.length) (min b s.length))).take
    (max (min a s.length) (min b s.length) - min (min a s.length) (min b s.length))

/-- JavaScript `Array.prototype.join sep`. -/
def joinSep (sep : List Char) : List (List Char) → List Char
  | [] => []
  | [x] => x
  | x :: y :: xs => x ++ sep ++ joinSep sep (y :: xs)

/-- JavaScript `s || d` for an optional string field: `d` when the field
is absent or the empty string. -/
def strOr (o : Option (List Char)) (d : List Char) : List Char :=
  match o with
  | none => d
  | some s => if s = [] then d else s

/-! ## Chunker (`chunkText`, geminiService.ts lines 94-105)

The source loop is

    let start = 0;
    while (start < text.length) {
      const end = Math.min(start + chunkSize, text.length);
      const chunk = text.substring(start, end);
      if (chunk.trim().length >= 100) chunks.push(chunk);
      if (end === text.length) break;
      start += chunkSize - overlap;
    }

It is embedded with a fuel parameter bounding the number of iterations;
`text.length + 1` units of fuel are always sufficient when
`overlap < chunkSize` (each iteration advances `start` by at least one),
which `chunkLoop_fuel_irrelevant` below makes precise. -/

/-- The minimum trimmed length an emitted chunk must have (source: the
literal `100` on line 100). -/
def keepChunk (c : List Char) : Bool := decide (100 ≤ trimmedLen c)

/-- One candidate window per loop iteration, with its start offset,
before the minimum-length filter. -/
def candLoop (text : List Char) (chunkSize overlap : Nat) :
    Nat → Nat → List (Nat × List Char)
  | 0, _ => []
  | fuel + 1, start =>
    if start < text.length then
      (start, (text.drop start).take (min (start + chunkSize) text.length - start)) ::
        (if min (start + chunkSize) text.length = text.length then []
         else candLoop text chunkSize overlap fuel (start + (chunkSize - overlap)))
    else []

/-- The source loop: emitted `(offset, chunk)` pairs, i.e. candidates
that pass the minimum-trimmed-length filter. -/
def chunkLoop (text : List Char) (chunkSize overlap : Nat) :
    Nat → Nat → List (Nat × List Char)
  | 0, _ => []
  | fuel + 1, start =>
    if start < text.length then
      let chunk := (text.drop start).take (min (start + chunkSize) text.length - start)
      let rest :=
        if min (start + chunkSize) text.length = text.length then []
        else chunkLoop text chunkSize overlap fuel (start + (chunkSize - overlap))
      if keepChunk chunk then (start, chunk) :: rest else rest
    else []

/-- All candidate windows of `chunkText text chunkSize overlap`. -/
def candidatePairs (text : List Char) (chunkSize overlap : Nat) : List (Nat × List Char) :=
  candLoop text chunkSize overlap (text.length + 1) 0

/-- The emitted chunks of `chunkText`, paired with their start offsets. -/
def chunkPairs (text : List Char) (chunkSize overlap : Nat) : List (Nat × List Char) :=
  chunkLoop text chunkSize overlap (text.length + 1) 0

/-- `chunkText` from the source: the emitted chunk contents, in loop
order.  The source defaults are `chunkSize = 2500`, `overlap = 400`. -/
def chunkText (text : List Char) (chunkSize overlap : Nat) : List (List Char) :=
  (chunkPairs text chunkSize overlap).map Prod.snd

/-- The start offsets of the emitted chunks. -/
def chunkOffsets (text : List Char) (chunkSize overlap : Nat) : List Nat :=
  (chunkPairs text chunkSize overlap).map Prod.fst

/-- A list of offsets that is exactly the arithmetic progression
`0, s, 2s, ...` of its own length; this is how claim C1 reads
"strictly increasing by exactly (chunkSize − overlap) starting from
offset 0". -/
def OffsetsExactArith (l : List Nat) (s : Nat) : Prop :=
  l = (List.range l.length).map (fun k => k * s)

/-- Claim C1 as stated: the emitted offsets form the exact arithmetic
progression from 0, and every emitted chunk passes the trimmed-length
threshold. -/
def ChunkerClaimC1 (text : List Char) (chunkSize overlap : Nat) : Prop :=
  OffsetsExactArith (chunkOffsets text chunkSize overlap) (chunkSize - overlap) ∧
  ∀ c ∈ chunkText text chunkSize overlap, 100 ≤ trimmedLen c

/-- The amended chunker contract: emitted pairs are exactly the
candidates passing the trimmed-length filter; the candidate offsets form
the exact arithmetic progression `0, s, 2s, ...`; hence the emitted
offsets are strictly increasing multiples of `s`; and every emitted
chunk meets the threshold. -/
def ChunkerAmendedC1 (text : List Char) (chunkSize overlap : Nat) : Prop :=
  chunkPairs text chunkSize overlap =
    (candidatePairs text chunkSize overlap).filter (fun p => keepChunk p.2) ∧
  OffsetsExactArith ((candidatePairs text chunkSize overlap).map Prod.fst)
    (chunkSize - overlap) ∧
  List.Pairwise (fun a b => a < b) (chunkOffsets text chunkSize overlap) ∧
  ∀ c ∈ chunkText text chunkSize overlap, 100 ≤ trimmedLen c

/-- Counterexample text for C1: a window of 100 blanks (discarded by the
trim filter) followed by 101 letters (emitted), so the first emitted
offset is 100, not 0. -/
def c1cexText : List Char := List.replicate 100 ' ' ++ List.replicate 101 'a'

/-- Witness text for C1's amended theorem. -/
def c1witText : List Char := List.replicate 120 'x'

/-! ## Retriever (`retrieveRelevantChunks`, geminiService.ts lines 111-149) -/

/-- A chunk together with its lexical score (the element shape of
`scoredChunks` in the source). -/
structure Scored where
  chunk : List Char
  score : Nat
  deriving DecidableEq, Repr

/-- `query.toLowerCase().split(/\s+/).filter(w => w.length > 3)`
(line 113). -/
def queryWordsOf (query : List Char) : List (List Char) :=
  (splitWs (lowerList query)).filter (fun w => decide (3 < w.length))

/-- The word-match part of a chunk's score: `+3` for every query word
contained in the lower-cased chunk (lines 120-123). -/
def wordScore (queryWords : List (List Char)) (chunk : List Char) : Nat :=
  queryWords.foldl
    (fun sc w => if strContains (lowerList chunk) w then sc + 3 else sc) 0

/-- Whether the query contains one of the four author/title trigger
words (line 127). -/
def hasAuthorTrigger (query : List Char) : Bool :=
  strContains (lowerList query) (str ("كاتب")) ||
  strContains (lowerList query) (str ("مؤلف")) ||
  strContains (lowerList query) (str ("author")) ||
  strContains (lowerList query) (str ("title"))

/-- JavaScript `Array.prototype.indexOf`: index of the first occurrence,
or the list's length when absent (the source only ever looks up elements
that are present). -/
def idxOfChunk : List (List Char) → List Char → Nat
  | [], _ => 0
  | c :: cs, x => if c = x then 0 else idxOfChunk cs x + 1

/-- `MIN_SCORE_THRESHOLD` (line 115). -/
def MIN_SCORE_THRESHOLD : Nat := 1

/-- The `chunks.map(...)` scoring pass of the source (lines 117-132):
word-match score plus the `+2` author/title bonus (`score += 2`) for
chunks whose first occurrence (`chunks.indexOf(chunk)`) is within the
first 3 positions. -/
def scoreChunks (query : List Char) (chunks : List (List Char)) : List Scored :=
  chunks.map (fun chunk =>
    { chunk := chunk,
      score := wordScore (queryWordsOf query) chunk +
        (if hasAuthorTrigger query && decide (idxOfChunk chunks chunk < 3)
         then 2 else 0) })

/-- Stable insertion of one scored chunk into a descending-by-score
list: the new element goes before the first element with a score less
than or equal to its own (equal-scored elements that were inserted later
stay later).  Together with `sortByScoreDesc` this is the unique result
mandated for `scoredChunks.sort((a, b) => b.score - a.score)` by
ES2019's stable-sort requirement. -/
def insertByScore (x : Scored) : List Scored → List Scored
  | [] => [x]
  | y :: ys => if y.score ≤ x.score then x :: y :: ys else y :: insertByScore x ys

/-- Stable sort descending by score (line 135). -/
def sortByScoreDesc : List Scored → List Scored
  | [] => []
  | x :: xs => insertByScore x (sortByScoreDesc xs)

/-- The retrieval pipeline up to (but excluding) the final projection to
chunk contents: score, stable-sort descending, filter by the minimum
score threshold, fall back to the whole sorted list when fewer than 3
survive, and truncate to `topK` (lines 111-147). -/
def retrieveScored (query : List Char) (chunks : List (List Char)) (topK : Nat) :
    List Scored :=
  if chunks = [] then []
  else
    (if ((sortByScoreDesc (scoreChunks query chunks)).filter
          (fun p => decide (MIN_SCORE_THRESHOLD ≤ p.score))).length < 3
     then sortByScoreDesc (scoreChunks query chunks)
     else (sortByScoreDesc (scoreChunks query chunks)).filter
          (fun p => decide (MIN_SCORE_THRESHOLD ≤ p.score))).take topK

/-- `retrieveRelevantChunks` from the source (the source default for
`topK` is 15; every call site passes 15 explicitly). -/
def retrieveRelevantChunks (query : List Char) (chunks : List (List Char))
    (topK : Nat) : List (List Char) :=
  (retrieveScored query chunks topK).map (fun p => p.chunk)

/-- Claim C4 as stated: under an author/title trigger query, the bonus
goes exactly to the first 3 positions of the chunk sequence. -/
def BonusClaimC4 (query : List Char) (chunks : List (List Char)) : Prop :=
  ∀ i, i < chunks.length →
    ((scoreChunks query chunks).getD i { chunk := [], score := 0 }).score =
      wordScore (queryWordsOf query) (chunks.getD i []) + (if i < 3 then 2 else 0)

/-- Counterexample chunk list for C4: the content at position 5
duplicates the content at position 0, so `indexOf` reports 0 for it and
the position bonus is applied at position 5. -/
def c4cexChunks : List (List Char) :=
  [str ("aaaa"), str ("b"), str ("c"), str ("d"), str ("e"), str ("aaaa")]

/-- Witness chunk list for C4's amended theorem (pairwise distinct). -/
def c4witChunks : List (List Char) :=
  [str ("p"), str ("q"), str ("r"), str ("s"), str ("t")]

/-! ## Rate limiter (`throttleRequest`, geminiService.ts lines 151-158)

The source reads the wall clock twice (once to compute the elapsed gap,
once after the optional `setTimeout` wait to refresh the timestamp), so
the embedding takes the stored timestamp and both clock readings and
returns the requested delay together with the new stored timestamp. -/

/-- `MIN_REQUEST_GAP` (line 57), in milliseconds. -/
def MIN_REQUEST_GAP : Int := 3500

/-- `throttleRequest`: given the stored `lastRequestTime`, the clock
reading `now` at entry and the clock reading `now2` after the optional
wait, returns `(requested delay, new lastRequestTime)`. -/
def throttleRequest (lastRequestTime now now2 : Int) : Int × Int :=
  (if now - lastRequestTime < MIN_REQUEST_GAP
   then MIN_REQUEST_GAP - (now - lastRequestTime) else 0,
   now2)

/-! ## Chat session (`GroqChatSession`, geminiService.ts lines 12-46) -/

/-- Message roles. -/
inductive Role where
  | system
  | user
  | assistant
  deriving DecidableEq

/-- One history entry (`{ role, content }`). -/
structure ChatMsg where
  role : Role
  content : List Char
  deriving DecidableEq

/-- The history seeded by the `GroqChatSession` constructor
(lines 18-23). -/
def initHistory (systemInstruction : List Char) : List ChatMsg :=
  [{ role := Role.system, content := systemInstruction }]

/-- The text increments yielded while consuming the stream: each raw
delta is `chunk.choices[0]?.delta?.content || ""` (modelled as an
`Option`), and only non-empty contents are yielded (lines 36-42). -/
def streamYields (deltas : List (Option (List Char))) : List (List Char) :=
  deltas.filterMap (fun d =>
    if d.getD [] = [] then none else some (d.getD []))

/-- Left-to-right concatenation, as `fullResponse += content`
accumulates. -/
def joinAll (l : List (List Char)) : List Char :=
  l.foldl (fun a b => a ++ b) []

/-- `sendMessageStream` (lines 25-45), fully consumed: appends the user
message, streams the deltas supplied by the oracle, and appends the
accumulated assistant response.  Returns the new history and the yielded
increments in order. -/
def sendMessageStream (history : List ChatMsg) (message : List Char)
    (deltas : List (Option (List Char))) : List ChatMsg × List (List Char) :=
  let h1 := history ++ [{ role := Role.user, content := message }]
  let yields := streamYields deltas
  (h1 ++ [{ role := Role.assistant, content := joinAll yields }], yields)

/-! ## Extraction orchestrator (`extractAxioms`, geminiService.ts
lines 219-327)

`throttleRequest` at the top of the function only touches the timing
state modelled separately above and cannot throw, so it does not appear
here.  The other external steps are supplied by an `ExtractEnv` oracle:
`apiKeyOk` is `getGroqClient` succeeding (line 82-86), `nativeText` is
the result of `extractNativeText` (which catches its own errors and
returns `""`, lines 192-217), `convertOk` is `convertPdfToImages`
succeeding (its image payload influences no claim), `apiResponse` maps
the prompt text to the upstream completion outcome (`none` content for a
`null` message), and `parse` is `JSON.parse` returning `none` on a parse
error. -/

/-- Manuscript metadata (`manuscriptMetadata`, line 53). -/
structure Metadata where
  title : Option (List Char) := none
  author : Option (List Char) := none
  chapters : Option (List Char) := none
  summary : Option (List Char) := none
  deriving DecidableEq

/-- One extracted axiom (interface `Axiom` of `types.ts`): term,
definition, significance. -/
structure AxiomItem where
  term : List Char := []
  definition : List Char := []
  significance : List Char := []
  deriving DecidableEq

/-- The fields the source reads off the parsed JSON object
(`result.axioms`, `result.snippets`, `result.metadata`,
`result.fullText`), each possibly absent. -/
structure ParsedResult where
  axioms : Option (List AxiomItem) := none
  snippets : Option (List (List Char)) := none
  metadata : Option Metadata := none
  fullText : Option (List Char) := none
  deriving DecidableEq

/-- The process-wide document state (lines 48-53): the chat-session
reference (modelled by whether one is active), the cached snippets, the
chunk sequence, the full manuscript text, the transient raw-PDF payload
and the metadata. -/
structure DocState where
  chatSessionActive : Bool
  manuscriptSnippets : List (List Char)
  documentChunks : List (List Char)
  fullManuscriptText : List Char
  currentPdfBase64 : Option (List Char)
  manuscriptMetadata : Metadata
  deriving DecidableEq

/-- The distinct failures `extractAxioms` can propagate. -/
inductive ExtractError where
  | apiKeyMissing
  | convertFailed
  | upstreamFailed
  | failedToParseJson
  deriving DecidableEq

/-- Oracle for the external steps of `extractAxioms`. -/
structure ExtractEnv where
  apiKeyOk : Bool
  nativeText : List Char
  convertOk : Bool
  apiResponse : List Char → Except Unit (Option (List Char))
  parse : List Char → Option ParsedResult

/-- The transcript preview inlined into the extraction prompt
(line 245): truncated to 20000 characters plus a marker only when the
transcript is strictly longer than 20000 characters. -/
def textPreview (nativeText : List Char) : List Char :=
  if 20000 < nativeText.length
  then nativeText.take 20000 ++ str ("...(truncated)")
  else nativeText

/-- The fixed prompt text preceding the transcript preview
(lines 247-251). -/
def promptPrefix : List Char :=
  str ("1. Extract exactly 13 high-quality \x27Knowledge Axioms\x27 from this manuscript.\n2. Extract 10 short, profound, and useful snippets or quotes DIRECTLY from the text (verbatim).\n3. Identify the Title, Author, and a brief list of Chapters/Structure.\n\nCONTEXT from Text Layer (Partial):\n")

/-- The fixed prompt text following the transcript preview
(lines 234-241 and 254-255): the language instruction and the JSON
schema description. -/
def promptSuffix : List Char :=
  str ("\n\nIMPORTANT: The \x27axioms\x27, \x27snippets\x27, and \x27metadata\x27 MUST be in the SAME LANGUAGE as the PDF manuscript itself.\n\n    RETURN ONLY JSON matching this structure:\n    \x7b\n      \"axioms\": [ \x7b \"term\": \"string\", \"definition\": \"string\", \"significance\": \"string\" \x7d ],\n      \"snippets\": [ \"string\" ],\n      \"metadata\": \x7b \"title\": \"string\", \"author\": \"string\", \"chapters\": \"string\" \x7d\n    \x7d\n    ")

/-- `combinedPrompt` (lines 247-255): fixed text around the preview. -/
def extractionPrompt (nativeText : List Char) : List Char :=
  promptPrefix ++ textPreview nativeText ++ promptSuffix

/-- The JSON-candidate extraction of lines 287-293: locate the first
`{` and the last `}`; when both exist take
`responseContent.substring(first, last + 1)` (JS `substring`, which
swaps its endpoints when given in descending order), otherwise leave the
response unchanged. -/
def extractJsonCandidate (response : List Char) : List Char :=
  match idxFirst response lbrace, idxLast response rbrace with
  | some i, some j => jsSubstring response i (j + 1)
  | some _, none => response
  | none, _ => response

/-- The Document State commit performed after a successful parse
(lines 303-320): snippets and metadata from the parse result, full text
preferring the native transcript when its trimmed length exceeds 500,
the structural map spliced into `metadata.chapters`, chunks from
`chunkText` at the default configuration, and the raw-PDF payload
cleared. -/
def commitState (st : DocState) (nativeText : List Char)
    (result : ParsedResult) : DocState :=
  let fullText :=
    if 500 < trimmedLen nativeText then nativeText else result.fullText.getD []
  let structuralMap := fullText.take (min 15000 fullText.length)
  let md0 := result.metadata.getD {}
  { st with
    manuscriptSnippets := result.snippets.getD [],
    manuscriptMetadata :=
      { md0 with
        chapters := some (str ("*** TABLE OF CONTENTS & INTRO MAP ***\n") ++
          structuralMap ++ str ("\n*** END MAP ***")) },
    fullManuscriptText := fullText,
    documentChunks := chunkText fullText 2500 400,
    currentPdfBase64 := none }

/-- The state mutations performed at the top of `extractAxioms`
(lines 223-224): `chatSession = null; currentPdfBase64 = pdfBase64;`. -/
def resetState (st : DocState) (pdfBase64 : List Char) : DocState :=
  { st with chatSessionActive := false, currentPdfBase64 := some pdfBase64 }

/-- `extractAxioms` (lines 219-327): the failure points in source order,
with the state mutations the source performs before each of them.  The
`catch` block rethrows the error unchanged (lines 323-326), so failures
surface as `Except.error` paired with the state as mutated so far.  A
`null` response content falls back to the literal `"{}"` (line 285). -/
def extractAxioms (st : DocState) (pdfBase64 : List Char) (env : ExtractEnv) :
    DocState × Except ExtractError (List AxiomItem) :=
  match env.apiKeyOk with
  | false => (st, Except.error ExtractError.apiKeyMissing)
  | true =>
    match env.convertOk with
    | false => (resetState st pdfBase64, Except.error ExtractError.convertFailed)
    | true =>
      match env.apiResponse (extractionPrompt env.nativeText) with
      | Except.error _ =>
        (resetState st pdfBase64, Except.error ExtractError.upstreamFailed)
      | Except.ok contentOpt =>
        match env.parse (extractJsonCandidate (contentOpt.getD (str ("\x7b\x7d")))) with
        | none =>
          (resetState st pdfBase64, Except.error ExtractError.failedToParseJson)
        | some result =>
          (commitState (resetState st pdfBase64) env.nativeText result,
           Except.ok (result.axioms.getD []))

/-! ## Chat orchestrator (`chatWithManuscriptStream`,
geminiService.ts lines 331-388): the prompt-assembly portion.  The
streaming part reuses `sendMessageStream` above; the claims about this
function concern which of the two prompt templates is built. -/

/-- The instruction block of the grounded template (lines 358-364). -/
def groundedInstr : List Char :=
  str ("\n\nINSTRUCTION: You are an advanced analytical engine capable of deep synthesis.\n1. Answer the question COMPREHENSIVELY using ONLY the provided context.\n2. Use the \x27MANUSCRIPT STRUCTURE\x27 to understand where the chunks fit in the whole book.\n3. If the answer is scattered across multiple chunks, synthesize them into a cohesive narrative.\n4. If the question asks for a summary or broad concept, ensure you cover all relevant aspects found in the context.\n5. Adopt the author\x27s intellectual style.\n6. Support your arguments with direct, verbatim quotes from the text.")

/-- The grounded prompt template (lines 346-364): structural map, the
retrieved chunks joined by the `\n\n---\n\n` separator, the user
question and the instruction block. -/
def groundedPrompt (userPrompt : List Char) (relevantChunks : List (List Char))
    (chapters : Option (List Char)) : List Char :=
  str ("MANUSCRIPT STRUCTURE (Table of Contents / Map):\n") ++
  strOr chapters (str ("Not available")) ++
  str ("\n\nCRITICAL CONTEXT CHUNKS (Use this to answer):\n") ++
  joinSep (str ("\n\n---\n\n")) relevantChunks ++
  str ("\n\nUSER QUESTION:\n") ++ userPrompt ++ groundedInstr

/-- The structure-only prompt template (lines 365-372). -/
def structureOnlyPrompt (userPrompt : List Char)
    (chapters : Option (List Char)) : List Char :=
  str ("MANUSCRIPT STRUCTURE (Table of Contents / Map):\n") ++
  strOr chapters (str ("Not available")) ++
  str ("\n\nUSER QUESTION: ") ++ userPrompt ++
  str ("\n\nINSTRUCTION: The specific context chunks were not found. However, use the provided \x27MANUSCRIPT STRUCTURE\x27 (Table of Contents/Intro) to answer if possible (e.g., if the user asks about chapter titles or general structure). If the detail is likely in the body text but not in this structure, state clearly that you need more specific context. Adopt the author\x27s style.")

/-- Prompt assembly of `chatWithManuscriptStream` (lines 340-372):
retrieve 15 chunks from the stored document chunks and pick the grounded
template exactly when at least one chunk came back. -/
def augmentedPromptFor (st : DocState) (userPrompt : List Char) : List Char :=
  let relevantChunks := retrieveRelevantChunks userPrompt st.documentChunks 15
  if 0 < relevantChunks.length then
    groundedPrompt userPrompt relevantChunks st.manuscriptMetadata.chapters
  else
    structureOnlyPrompt userPrompt st.manuscriptMetadata.chapters

/-! ## Concrete inputs used by counterexamples and witnesses -/

/-- A pre-call document state holding data from a previous manuscript
(used by C2). -/
def c2st : DocState :=
  { chatSessionActive := true,
    manuscriptSnippets := [str ("old snippet")],
    documentChunks := [str ("old chunk")],
    fullManuscriptText := str ("old text"),
    currentPdfBase64 := none,
    manuscriptMetadata := { title := some (str ("Old Title")) } }

/-- The new raw-PDF payload passed to the failing extraction (C2). -/
def c2pdf : List Char := str ("NEWPDFPAYLOAD")

/-- An environment whose upstream response is not parseable JSON, so the
extraction fails at the parse step (C2). -/
def c2env : ExtractEnv :=
  { apiKeyOk := true,
    nativeText := [],
    convertOk := true,
    apiResponse := fun _ => Except.ok (some (str ("no json here"))),
    parse := fun _ => none }

/-- An environment for a fully successful extraction over a 600-letter
transcript (C5 witness). -/
def c5env : ExtractEnv :=
  { apiKeyOk := true,
    nativeText := List.replicate 600 'a',
    convertOk := true,
    apiResponse := fun _ => Except.ok (some (str ("\x7b\x7d"))),
    parse := fun _ => some {} }

/-- An empty pre-call document state (C5 witness). -/
def c5st : DocState :=
  { chatSessionActive := false,
    manuscriptSnippets := [],
    documentChunks := [],
    fullManuscriptText := [],
    currentPdfBase64 := none,
    manuscriptMetadata := {} }

/-- Chunks used by the C3 witness. -/
def c3chunks : List (List Char) := [str ("alpha"), str ("beta")]

/-- A transcript of exactly 20000 characters (C5 counterexample). -/
def c5cexText : List Char := List.replicate 20000 'a'

/-- A document state with a non-empty chunk sequence (C10 witness). -/
def c10st : DocState :=
  { chatSessionActive := false,
    manuscriptSnippets := [],
    documentChunks := [str ("some chunk text")],
    fullManuscriptText := [],
    currentPdfBase64 := none,
    manuscriptMetadata := {} }

/-- A response whose first `{` comes after its last `}` (C6
counterexample). -/
def c6cexResponse : List Char := str ("\x7dx\x7b")

/-- A well-formed response with prose around the JSON object (C6
witness). -/
def c6witResponse : List Char := str ("pre \x7b\x22k\x22:1\x7d post")

/-- An environment delivering `c6witResponse` and failing to parse it
(C6 witness for the parse-error propagation). -/
def c6env : ExtractEnv :=
  { apiKeyOk := true,
    nativeText := [],
    convertOk := true,
    apiResponse := fun _ => Except.ok (some (str ("pre \x7b\x22k\x22:1\x7d post"))),
    parse := fun _ => none }

/-! # Theorems

## Chunker lemmas -/

theorem chunkLoop_eq_filter (text : List Char) (cs ov : Nat) :
    ∀ fuel start, chunkLoop text cs ov fuel start =
      (candLoop text cs ov fuel start).filter (fun p => keepChunk p.2) := by
  intro fuel
  induction fuel with
  | zero => intro start; rfl
  | succ n ih =>
    intro start
    by_cases h : start < text.length
    · by_cases he : min (start + cs) text.length = text.length
      · simp [chunkLoop, candLoop, h, he, List.filter_cons]
      · simp [chunkLoop, candLoop, h, he, List.filter_cons, ih]
    · simp [chunkLoop, candLoop, h]

theorem chunkPairs_eq_filter (text : List Char) (cs ov : Nat) :
    chunkPairs text cs ov =
      (candidatePairs text cs ov).filter (fun p => keepChunk p.2) :=
  chunkLoop_eq_filter text cs ov (text.length + 1) 0

theorem candLoop_offsets (text : List Char) (cs ov : Nat) :
    ∀ fuel start, (candLoop text cs ov fuel start).map Prod.fst =
      (List.range (candLoop text cs ov fuel start).length).map
        (fun k => start + k * (cs - ov)) := by
  intro fuel
  induction fuel with
  | zero => intro start; rfl
  | succ n ih =>
    intro start
    simp only [candLoop]
    by_cases h : start < text.length
    · rw [if_pos h]
      by_cases he : min (start + cs) text.length = text.length
      · rw [if_pos he]; simp [List.range_succ]
      · rw [if_neg he]
        simp only [List.map_cons, List.length_cons, List.range_succ_eq_map,
          List.map_map, ih (start + (cs - ov)), Nat.zero_mul, Nat.add_zero]
        congr 1
        refine List.map_congr_left ?_
        intro k _
        simp only [Function.comp_apply, Nat.succ_eq_add_one]
        ring
    · rw [if_neg h]; rfl

theorem candidatePairs_offsets (text : List Char) (cs ov : Nat) :
    OffsetsExactArith ((candidatePairs text cs ov).map Prod.fst) (cs - ov) := by
  unfold OffsetsExactArith
  rw [List.length_map]
  have h := candLoop_offsets text cs ov (text.length + 1) 0
  unfold candidatePairs
  rw [h]
  refine List.map_congr_left ?_
  intro k _
  omega

theorem chunkOffsets_pairwise (text : List Char) (cs ov : Nat) (h : ov < cs) :
    List.Pairwise (fun a b => a < b) (chunkOffsets text cs ov) := by
  have hcand : List.Pairwise (fun a b => a < b)
      ((candidatePairs text cs ov).map Prod.fst) := by
    rw [candidatePairs_offsets text cs ov]
    rw [List.pairwise_map]
    refine (List.pairwise_lt_range _).imp ?_
    intro a b hab
    have hs : 0 < cs - ov := by omega
    exact (Nat.mul_lt_mul_right hs).mpr hab
  have hsub : List.Sublist (chunkOffsets text cs ov)
      ((candidatePairs text cs ov).map Prod.fst) := by
    unfold chunkOffsets
    rw [chunkPairs_eq_filter]
    exact (List.filter_sublist _).map Prod.fst
  exact hcand.sublist hsub

theorem chunkText_keeps (text : List Char) (cs ov : Nat) :
    ∀ c ∈ chunkText text cs ov, 100 ≤ trimmedLen c := by
  intro c hc
  unfold chunkText at hc
  rw [chunkPairs_eq_filter] at hc
  obtain ⟨p, hp, rfl⟩ := List.mem_map.1 hc
  have := List.of_mem_filter hp
  simpa [keepChunk] using this

set_option maxRecDepth 100000 in
/-- Claim C1, counterexample: on a text whose first window is all
whitespace, the first emitted chunk has start offset 100, so the emitted
offsets are not the arithmetic progression starting at 0 that the claim
demands. -/
theorem chunker_claimC1_counterexample : ¬ ChunkerClaimC1 c1cexText 101 1 := by
  intro hcl
  have h1 := hcl.1
  unfold OffsetsExactArith at h1
  have he : chunkOffsets c1cexText 101 1 = [100] := by decide
  rw [he] at h1
  simp [List.range_succ] at h1

/-- Claim C1 (amended): for `overlap < chunkSize`, the candidate window
offsets form the exact arithmetic progression `0, s, 2s, ...` with
`s = chunkSize - overlap`; the emitted chunks are exactly the candidates
whose trimmed length reaches the 100-character threshold, so the emitted
offsets are strictly increasing multiples of `s` (but may skip
candidates, and need not start at 0), and every emitted chunk meets the
threshold. -/
theorem chunker_amended (text : List Char) (cs ov : Nat) (h : ov < cs) :
    ChunkerAmendedC1 text cs ov :=
  ⟨chunkPairs_eq_filter text cs ov, candidatePairs_offsets text cs ov,
   chunkOffsets_pairwise text cs ov h, chunkText_keeps text cs ov⟩

/-- Witness for `chunker_amended` at a concrete text and configuration. -/
theorem chunker_amended_witness : 1 < 101 ∧ ChunkerAmendedC1 c1witText 101 1 :=
  ⟨by decide, chunker_amended c1witText 101 1 (by decide)⟩

theorem candLoop_fuel_irrelevant (text : List Char) (cs ov : Nat) (h : ov < cs) :
    ∀ fuel fuel' start, text.length - start < fuel → text.length - start < fuel' →
      candLoop text cs ov fuel start = candLoop text cs ov fuel' start := by
  intro fuel
  induction fuel with
  | zero => intro fuel' start h1 h2; exact absurd h1 (by omega)
  | succ n ih =>
    intro fuel' start h1 h2
    cases fuel' with
    | zero => exact absurd h2 (by omega)
    | succ m =>
      simp only [candLoop]
      by_cases hs : start < text.length
      · rw [if_pos hs, if_pos hs]
        by_cases he : min (start + cs) text.length = text.length
        · rw [if_pos he, if_pos he]
        · rw [if_neg he, if_neg he]
          exact congrArg _ (ih m (start + (cs - ov)) (by omega) (by omega))
      · rw [if_neg hs, if_neg hs]

theorem chunkLoop_fuel_irrelevant (text : List Char) (cs ov : Nat) (h : ov < cs)
    (fuel fuel' start : Nat) (h1 : text.length - start < fuel)
    (h2 : text.length - start < fuel') :
    chunkLoop text cs ov fuel start = chunkLoop text cs ov fuel' start := by
  rw [chunkLoop_eq_filter, chunkLoop_eq_filter,
    candLoop_fuel_irrelevant text cs ov h fuel fuel' start h1 h2]

/-! ## Retriever lemmas -/

theorem insertByScore_perm (x : Scored) :
    ∀ l, List.Perm (insertByScore x l) (x :: l) := by
  intro l
  induction l with
  | nil => exact List.Perm.refl _
  | cons y ys ih =>
    simp only [insertByScore]
    by_cases h : y.score ≤ x.score
    · rw [if_pos h]
    · rw [if_neg h]
      exact (ih.cons y).trans (List.Perm.swap x y ys)

theorem sortByScoreDesc_perm : ∀ l, List.Perm (sortByScoreDesc l) l := by
  intro l
  induction l with
  | nil => exact List.Perm.refl _
  | cons x xs ih =>
    simp only [sortByScoreDesc]
    exact (insertByScore_perm x (sortByScoreDesc xs)).trans (ih.cons x)

theorem filter_insertByScore (x : Scored) (s : Nat) :
    ∀ l, (insertByScore x l).filter (fun p => p.score == s) =
      (if x.score = s then [x] else []) ++ l.filter (fun p => p.score == s) := by
  intro l
  induction l with
  | nil => by_cases hx : x.score = s <;> simp [insertByScore, hx, List.filter_cons]
  | cons y ys ih =>
    simp only [insertByScore]
    by_cases h : y.score ≤ x.score
    · rw [if_pos h]
      by_cases hx : x.score = s <;> simp [hx, List.filter_cons]
    · rw [if_neg h]
      by_cases hy : y.score = s
      · have hx : ¬ x.score = s := by omega
        simp [List.filter_cons, hy, hx, ih]
      · simp [List.filter_cons, hy, ih]

theorem filter_sortByScoreDesc (s : Nat) :
    ∀ l, (sortByScoreDesc l).filter (fun p => p.score == s) =
      l.filter (fun p => p.score == s) := by
  intro l
  induction l with
  | nil => rfl
  | cons x xs ih =>
    simp only [sortByScoreDesc]
    rw [filter_insertByScore, ih]
    by_cases hx : x.score = s <;> simp [hx, List.filter_cons]

theorem filter_take_front {α : Type} (l : List α) :
    ∀ (n : Nat) (p : α → Bool), ∃ t, (l.take n).filter p ++ t = l.filter p := by
  induction l with
  | nil => intro n p; exact ⟨[], by simp⟩
  | cons x xs ih =>
    intro n p
    cases n with
    | zero => exact ⟨(x :: xs).filter p, by simp⟩
    | succ m =>
      obtain ⟨t, ht⟩ := ih m p
      by_cases hx : p x
      · refine ⟨t, ?_⟩
        simp only [List.take_succ_cons, List.filter_cons, hx, if_pos,
          List.cons_append]
        rw [ht]
      · refine ⟨t, ?_⟩
        simpa [List.take_succ_cons, List.filter_cons, hx] using ht

theorem filter_score_of_threshold (l : List Scored) (s : Nat)
    (hs : MIN_SCORE_THRESHOLD ≤ s) :
    (l.filter (fun p => decide (MIN_SCORE_THRESHOLD ≤ p.score))).filter
        (fun p => p.score == s) =
      l.filter (fun p => p.score == s) := by
  induction l with
  | nil => rfl
  | cons x xs ih =>
    by_cases hx : x.score = s
    · have hq : MIN_SCORE_THRESHOLD ≤ x.score := by omega
      simp [List.filter_cons, hx, hq, hs, ih]
    · by_cases hq : MIN_SCORE_THRESHOLD ≤ x.score <;>
        simp [List.filter_cons, hx, hq, hs, ih]

theorem filter_score_below_threshold (l : List Scored) (s : Nat)
    (hs : ¬ MIN_SCORE_THRESHOLD ≤ s) :
    (l.filter (fun p => decide (MIN_SCORE_THRESHOLD ≤ p.score))).filter
        (fun p => p.score == s) = [] := by
  induction l with
  | nil => rfl
  | cons x xs ih =>
    by_cases hq : MIN_SCORE_THRESHOLD ≤ x.score
    · have hx : ¬ x.score = s := by omega
      simp [List.filter_cons, hq, hx, ih]
    · simp [List.filter_cons, hq, ih]

theorem scoreChunks_chunk_mem (query : List Char) (chunks : List (List Char)) :
    ∀ p ∈ scoreChunks query chunks, p.chunk ∈ chunks := by
  intro p hp
  unfold scoreChunks at hp
  obtain ⟨c, hc, hpc⟩ := List.mem_map.1 hp
  rw [← hpc]
  exact hc

theorem scoreChunks_length (query : List Char) (chunks : List (List Char)) :
    (scoreChunks query chunks).length = chunks.length := by
  unfold scoreChunks
  exact List.length_map _ _

theorem retrieveScored_mem (query : List Char) (chunks : List (List Char))
    (topK : Nat) : ∀ p ∈ retrieveScored query chunks topK,
      p ∈ scoreChunks query chunks := by
  intro p hp
  unfold retrieveScored at hp
  by_cases hcs : chunks = []
  · rw [if_pos hcs] at hp; cases hp
  · rw [if_neg hcs] at hp
    have hp2 := List.mem_of_mem_take hp
    have hp3 : p ∈ sortByScoreDesc (scoreChunks query chunks) := by
      split at hp2
      · exact hp2
      · exact List.mem_of_mem_filter hp2
    exact (sortByScoreDesc_perm _).mem_iff.1 hp3

theorem retrieveScored_length_le (query : List Char) (chunks : List (List Char))
    (topK : Nat) : (retrieveScored query chunks topK).length ≤ topK := by
  unfold retrieveScored
  by_cases hcs : chunks = []
  · rw [if_pos hcs]; exact Nat.zero_le _
  · rw [if_neg hcs]
    exact List.length_take_le _ _

theorem retrieveScored_length_pos (query : List Char) (chunks : List (List Char))
    (topK : Nat) (hcs : chunks ≠ []) (hk : 0 < topK) :
    0 < (retrieveScored query chunks topK).length := by
  unfold retrieveScored
  rw [if_neg hcs, List.length_take]
  have hlen : 0 < (sortByScoreDesc (scoreChunks query chunks)).length := by
    rw [(sortByScoreDesc_perm _).length_eq, scoreChunks_length]
    exact List.length_pos.2 hcs
  split
  · exact lt_min hk hlen
  · rename_i h3
    exact lt_min hk (by omega)

theorem retrieveScored_ne_nil (query : List Char) (chunks : List (List Char))
    (topK : Nat) (hcs : chunks ≠ []) (hk : 0 < topK) :
    retrieveScored query chunks topK ≠ [] :=
  List.length_pos.1 (retrieveScored_length_pos query chunks topK hcs hk)

theorem retrieveRelevantChunks_ne_nil (query : List Char)
    (chunks : List (List Char)) (topK : Nat) (hcs : chunks ≠ []) (hk : 0 < topK) :
    retrieveRelevantChunks query chunks topK ≠ [] := by
  unfold retrieveRelevantChunks
  intro hnil
  exact retrieveScored_ne_nil query chunks topK hcs hk (List.map_eq_nil_iff.1 hnil)

/-- Claim C3: for a non-empty chunk sequence and positive `topK`, the
retriever returns between 1 and `topK` chunks, all of which occur in the
input sequence; an empty chunk sequence returns the empty result. -/
theorem retriever_bounds (query : List Char) (chunks : List (List Char))
    (topK : Nat) (hcs : chunks ≠ []) (hk : 0 < topK) :
    1 ≤ (retrieveRelevantChunks query chunks topK).length ∧
    (retrieveRelevantChunks query chunks topK).length ≤ topK ∧
    (∀ c ∈ retrieveRelevantChunks query chunks topK, c ∈ chunks) ∧
    retrieveRelevantChunks query [] topK = [] := by
  refine ⟨?_, ?_, ?_, rfl⟩
  · have := retrieveRelevantChunks_ne_nil query chunks topK hcs hk
    exact List.length_pos.2 this
  · unfold retrieveRelevantChunks
    rw [List.length_map]
    exact retrieveScored_length_le query chunks topK
  · intro c hc
    unfold retrieveRelevantChunks at hc
    obtain ⟨p, hp, hpc⟩ := List.mem_map.1 hc
    rw [← hpc]
    exact scoreChunks_chunk_mem query chunks p (retrieveScored_mem query chunks topK p hp)

/-- Witness for `retriever_bounds` at a concrete query and chunk list. -/
theorem retriever_bounds_witness :
    1 ≤ (retrieveRelevantChunks (str ("hello")) c3chunks 15).length ∧
    (retrieveRelevantChunks (str ("hello")) c3chunks 15).length ≤ 15 := by
  have h := retriever_bounds (str ("hello")) c3chunks 15 (by decide) (by decide)
  exact ⟨h.1, h.2.1⟩

/-- Claim C8: the retriever is order-stable.  The returned list is the
chunk projection of `retrieveScored`, and for every score value `s` the
score-`s` entries of `retrieveScored` are a prefix of the score-`s`
entries of the scoring pass `scoreChunks` (which lists chunks in input
order) -- so equal-scored chunks appear in the result in input order. -/
theorem retriever_stable (query : List Char) (chunks : List (List Char))
    (topK s : Nat) :
    retrieveRelevantChunks query chunks topK =
      (retrieveScored query chunks topK).map (fun p => p.chunk) ∧
    ∃ t, (retrieveScored query chunks topK).filter (fun p => p.score == s) ++ t =
      (scoreChunks query chunks).filter (fun p => p.score == s) := by
  refine ⟨rfl, ?_⟩
  unfold retrieveScored
  by_cases hcs : chunks = []
  · rw [if_pos hcs, hcs]
    exact ⟨[], rfl⟩
  · rw [if_neg hcs]
    split
    · obtain ⟨t, ht⟩ :=
        filter_take_front (sortByScoreDesc (scoreChunks query chunks)) topK
          (fun p => p.score == s)
      exact ⟨t, by rw [ht, filter_sortByScoreDesc]⟩
    · by_cases hs1 : MIN_SCORE_THRESHOLD ≤ s
      · obtain ⟨t, ht⟩ :=
          filter_take_front
            ((sortByScoreDesc (scoreChunks query chunks)).filter
              (fun p => decide (MIN_SCORE_THRESHOLD ≤ p.score))) topK
            (fun p => p.score == s)
        refine ⟨t, ?_⟩
        rw [ht, filter_score_of_threshold _ s hs1, filter_sortByScoreDesc]
      · refine ⟨(scoreChunks query chunks).filter (fun p => p.score == s), ?_⟩
        have hnil : (((sortByScoreDesc (scoreChunks query chunks)).filter
            (fun p => decide (MIN_SCORE_THRESHOLD ≤ p.score))).take topK).filter
            (fun p => p.score == s) = [] := by
          obtain ⟨t, ht⟩ :=
            filter_take_front
              ((sortByScoreDesc (scoreChunks query chunks)).filter
                (fun p => decide (MIN_SCORE_THRESHOLD ≤ p.score))) topK
              (fun p => p.score == s)
          rw [filter_score_below_threshold _ s hs1] at ht
          exact List.append_eq_nil.1 ht |>.1
        rw [hnil]
        rfl

/-! ## Author/title bonus (claim C4) -/

theorem scoreChunks_getD (query : List Char) (chunks : List (List Char)) (i : Nat)
    (hi : i < chunks.length) :
    (scoreChunks query chunks).getD i { chunk := [], score := 0 } =
      { chunk := chunks.getD i [],
        score := wordScore (queryWordsOf query) (chunks.getD i []) +
          (if hasAuthorTrigger query && decide (idxOfChunk chunks (chunks.getD i []) < 3)
           then 2 else 0) } := by
  unfold scoreChunks
  rw [List.getD_eq_getElem?_getD, List.getElem?_map, List.getElem?_eq_getElem hi]
  rw [List.getD_eq_getElem?_getD, List.getElem?_eq_getElem hi]
  rfl

theorem idxOfChunk_getD_of_nodup :
    ∀ (cs : List (List Char)), cs.Nodup → ∀ i, i < cs.length →
      idxOfChunk cs (cs.getD i []) = i := by
  intro cs
  induction cs with
  | nil => intro _ i hi; exact absurd hi (by simp)
  | cons c cs ih =>
    intro hnd i hi
    cases i with
    | zero => simp [idxOfChunk]
    | succ j =>
      have hj : j < cs.length := by simpa using hi
      have hmem : cs.getD j [] ∈ cs := by
        rw [List.getD_eq_getElem?_getD, List.getElem?_eq_getElem hj]
        exact List.getElem_mem hj
      have hne : ¬ c = cs.getD j [] := by
        intro hceq
        exact (List.nodup_cons.1 hnd).1 (hceq ▸ hmem)
      rw [List.getD_cons_succ]
      simp only [idxOfChunk, if_neg hne]
      rw [ih (List.nodup_cons.1 hnd).2 j hj]

set_option maxRecDepth 100000 in
/-- Claim C4, counterexample: for the trigger query `"author"` and a
chunk list whose position-5 content duplicates position 0, the source's
`chunks.indexOf(chunk)` sees index 0 for the duplicate, so the position
bonus is applied at position 5 -- beyond the first 3 positions. -/
theorem bonus_claimC4_counterexample :
    ¬ BonusClaimC4 (str ("author")) c4cexChunks := by
  intro hcl
  have h5 := hcl 5 (by decide)
  revert h5
  decide

/-- Claim C4 (amended): under an author/title trigger query, each
chunk's score is its word score plus the bonus exactly when the index of
the FIRST occurrence of its content is below 3; when the chunk contents
are pairwise distinct this coincides with the claim as stated (bonus on
exactly the first 3 positions). -/
theorem bonus_first_occurrence (query : List Char) (chunks : List (List Char))
    (htrig : hasAuthorTrigger query = true) :
    (∀ i, i < chunks.length →
      ((scoreChunks query chunks).getD i { chunk := [], score := 0 }).score =
        wordScore (queryWordsOf query) (chunks.getD i []) +
          (if idxOfChunk chunks (chunks.getD i []) < 3 then 2 else 0)) ∧
    (chunks.Nodup → BonusClaimC4 query chunks) := by
  have hbase : ∀ i, i < chunks.length →
      ((scoreChunks query chunks).getD i { chunk := [], score := 0 }).score =
        wordScore (queryWordsOf query) (chunks.getD i []) +
          (if idxOfChunk chunks (chunks.getD i []) < 3 then 2 else 0) := by
    intro i hi
    rw [scoreChunks_getD query chunks i hi]
    simp [htrig]
  refine ⟨hbase, ?_⟩
  intro hnd
  intro i hi
  rw [hbase i hi, idxOfChunk_getD_of_nodup chunks hnd i hi]

/-- Witness for `bonus_first_occurrence` on a distinct chunk list: the
claim as stated does hold there. -/
theorem bonus_first_occurrence_witness :
    hasAuthorTrigger (str ("author")) = true ∧
    BonusClaimC4 (str ("author")) c4witChunks :=
  ⟨by decide,
   (bonus_first_occurrence (str ("author")) c4witChunks (by decide)).2 (by decide)⟩

/-! ## Rate limiter (claim C7) -/

/-- Claim C7: when the gap since the previous call is below
`MIN_REQUEST_GAP`, the requested delay is exactly (hence at least)
`MIN_REQUEST_GAP - gap`; when the gap is at least `MIN_REQUEST_GAP`
there is no delay; and in both cases the stored timestamp becomes the
current clock reading taken after the (possible) wait. -/
theorem throttle_gap (lastRequestTime now now2 : Int) :
    (now - lastRequestTime < MIN_REQUEST_GAP →
      (throttleRequest lastRequestTime now now2).1 =
        MIN_REQUEST_GAP - (now - lastRequestTime) ∧
      MIN_REQUEST_GAP - (now - lastRequestTime) ≤
        (throttleRequest lastRequestTime now now2).1) ∧
    (MIN_REQUEST_GAP ≤ now - lastRequestTime →
      (throttleRequest lastRequestTime now now2).1 = 0) ∧
    (throttleRequest lastRequestTime now now2).2 = now2 := by
  refine ⟨?_, ?_, rfl⟩
  · intro h
    unfold throttleRequest
    rw [if_pos h]
    exact ⟨rfl, le_refl _⟩
  · intro h
    unfold throttleRequest
    rw [if_neg (by omega)]

/-- Witness for `throttle_gap`: a 1000 ms gap requests a 2500 ms delay;
a 5000 ms gap requests none; the timestamp is refreshed. -/
theorem throttle_gap_witness :
    (throttleRequest 0 1000 1200).1 = 2500 ∧
    (throttleRequest 0 5000 5000).1 = 0 ∧
    (throttleRequest 0 1000 1200).2 = 1200 := by
  have h1 := (throttle_gap 0 1000 1200).1 (by decide)
  have h2 := (throttle_gap 0 5000 5000).2.1 (by decide)
  have h3 := (throttle_gap 0 1000 1200).2.2
  refine ⟨?_, h2, h3⟩
  rw [h1.1]
  decide

/-! ## Chat session (claim C9) -/

theorem streamYields_ne_nil (deltas : List (Option (List Char))) :
    ∀ y ∈ streamYields deltas, y ≠ [] := by
  intro y hy
  unfold streamYields at hy
  obtain ⟨d, _, hdy⟩ := List.mem_filterMap.1 hy
  by_cases h : d.getD [] = []
  · rw [if_pos h] at hdy
    cases hdy
  · rw [if_neg h] at hdy
    cases hdy
    exact h

/-- Claim C9: consuming one `sendMessageStream` call on a freshly
constructed session leaves the history as exactly system, then the user
message, then an assistant message whose content is the concatenation of
the yielded increments; the history grew by two; every yielded increment
is non-empty; and the seeded system message is still first. -/
theorem chat_session_round (systemInstruction message : List Char)
    (deltas : List (Option (List Char))) :
    (sendMessageStream (initHistory systemInstruction) message deltas).1 =
      [{ role := Role.system, content := systemInstruction },
       { role := Role.user, content := message },
       { role := Role.assistant, content :=
          joinAll (sendMessageStream (initHistory systemInstruction) message deltas).2 }] ∧
    (sendMessageStream (initHistory systemInstruction) message deltas).1.length =
      (initHistory systemInstruction).length + 2 ∧
    (∀ y ∈ (sendMessageStream (initHistory systemInstruction) message deltas).2,
      y ≠ []) ∧
    (sendMessageStream (initHistory systemInstruction) message deltas).1.head? =
      some { role := Role.system, content := systemInstruction } :=
  ⟨rfl, rfl, streamYields_ne_nil deltas, rfl⟩

/-- Witness for `chat_session_round` at a concrete stream. -/
theorem chat_session_round_witness :
    (sendMessageStream (initHistory (str ("sys"))) (str ("hi"))
      [some (str ("a")), none, some [], some (str ("bc"))]).1.length =
      (initHistory (str ("sys"))).length + 2 ∧
    (sendMessageStream (initHistory (str ("sys"))) (str ("hi"))
      [some (str ("a")), none, some [], some (str ("bc"))]).1.head? =
      some { role := Role.system, content := str ("sys") } :=
  ⟨(chat_session_round (str ("sys")) (str ("hi"))
      [some (str ("a")), none, some [], some (str ("bc"))]).2.1,
   (chat_session_round (str ("sys")) (str ("hi"))
      [some (str ("a")), none, some [], some (str ("bc"))]).2.2.2⟩

/-! ## JSON extraction (claim C6) -/

theorem idxFirst_lt_length :
    ∀ (s : List Char) (c : Char) (i : Nat), idxFirst s c = some i → i < s.length := by
  intro s
  induction s with
  | nil => intro c i h; cases h
  | cons x xs ih =>
    intro c i h
    simp only [idxFirst] at h
    by_cases hx : x = c
    · rw [if_pos hx] at h
      cases h
      simp
    · rw [if_neg hx] at h
      obtain ⟨k, hk, hki⟩ := Option.map_eq_some'.1 h
      have := ih c k hk
      simp only [List.length_cons]
      omega

theorem idxLast_lt_length (s : List Char) (c : Char) (j : Nat)
    (h : idxLast s c = some j) : j < s.length := by
  unfold idxLast at h
  obtain ⟨k, hk, hj⟩ := Option.map_eq_some'.1 h
  have hlen : k < s.length := by
    have := idxFirst_lt_length s.reverse c k hk
    simpa using this
  omega

theorem extractJsonCandidate_inclusive (r : List Char) (i j : Nat)
    (hi : idxFirst r lbrace = some i) (hj : idxLast r rbrace = some j)
    (hij : i ≤ j) :
    extractJsonCandidate r = (r.drop i).take (j + 1 - i) := by
  have h1 : i < r.length := idxFirst_lt_length r lbrace i hi
  have h2 : j < r.length := idxLast_lt_length r rbrace j hj
  have ea : min (min i r.length) (min (j + 1) r.length) = i := by omega
  have eb : max (min i r.length) (min (j + 1) r.length) = j + 1 := by omega
  unfold extractJsonCandidate
  rw [hi, hj]
  show jsSubstring r i (j + 1) = (r.drop i).take (j + 1 - i)
  unfold jsSubstring
  rw [ea, eb]

set_option maxRecDepth 10000 in
/-- Claim C6, counterexample: in the response `"}x{"` the first `{`
(index 2) comes after the last `}` (index 0); JS `substring` swaps the
endpoints, so the code extracts `"x"` -- which contains neither brace --
not the inclusive substring between the two positions that the claim
describes. -/
theorem json_extraction_counterexample :
    idxFirst c6cexResponse lbrace = some 2 ∧
    idxLast c6cexResponse rbrace = some 0 ∧
    extractJsonCandidate c6cexResponse = str ("x") ∧
    lbrace ∉ extractJsonCandidate c6cexResponse ∧
    rbrace ∉ extractJsonCandidate c6cexResponse := by decide

/-- Claim C6 (amended): when the first `{` occurs at or before the last
`}`, the code extracts exactly the inclusive substring between them (for
responses where the first `{` comes after the last `}`, JS `substring`
swaps the endpoints instead); and whenever the extracted candidate fails
to parse, `extractAxioms` fails with `FAILED_TO_PARSE_JSON`. -/
theorem json_extraction_amended :
    (∀ r i j, idxFirst r lbrace = some i → idxLast r rbrace = some j → i ≤ j →
      extractJsonCandidate r = (r.drop i).take (j + 1 - i)) ∧
    (∀ st pdf env resp, env.apiKeyOk = true → env.convertOk = true →
      env.apiResponse (extractionPrompt env.nativeText) = Except.ok (some resp) →
      env.parse (extractJsonCandidate resp) = none →
      (extractAxioms st pdf env).2 = Except.error ExtractError.failedToParseJson) := by
  refine ⟨extractJsonCandidate_inclusive, ?_⟩
  intro st pdf env resp hk hc hr hp
  unfold extractAxioms
  rw [hk, hc, hr]
  simp only [Option.getD_some]
  rw [hp]

set_option maxRecDepth 10000 in
/-- Witness for `json_extraction_amended`: a concrete well-formed
response, and a concrete run ending in the parse error. -/
theorem json_extraction_witness :
    extractJsonCandidate c6witResponse = str ("\x7b\x22k\x22:1\x7d") ∧
    (extractAxioms c2st c2pdf c6env).2 =
      Except.error ExtractError.failedToParseJson := by
  constructor
  · have h := json_extraction_amended.1 c6witResponse 4 10
      (by decide) (by decide) (by decide)
    rw [h]
    decide
  · exact json_extraction_amended.2 c2st c2pdf c6env c6witResponse rfl rfl rfl rfl

/-! ## Extraction failure atomicity (claim C2) -/

set_option maxRecDepth 10000 in
/-- Claim C2, counterexample: a run failing at the JSON-parse step
leaves the old snippets in place but has already overwritten the
raw-PDF payload with the new one -- a partial Document State update,
mixing old and new manuscript state. -/
theorem extract_partial_update_counterexample :
    (extractAxioms c2st c2pdf c2env).2 =
      Except.error ExtractError.failedToParseJson ∧
    (extractAxioms c2st c2pdf c2env).1.currentPdfBase64 = some c2pdf ∧
    (extractAxioms c2st c2pdf c2env).1.currentPdfBase64 ≠ c2st.currentPdfBase64 ∧
    (extractAxioms c2st c2pdf c2env).1.manuscriptSnippets = c2st.manuscriptSnippets := by
  refine ⟨rfl, rfl, ?_, rfl⟩
  decide

/-- Claim C2 (amended): on every failure the error propagates and the
snippet list, metadata, full manuscript text and chunk sequence retain
their pre-call values; the raw-PDF payload, however, either retains its
pre-call value (credential failure, which precedes any mutation) or has
already been overwritten with the new payload. -/
theorem extract_failure_state (st : DocState) (pdf : List Char) (env : ExtractEnv)
    (st' : DocState) (e : ExtractError)
    (h : extractAxioms st pdf env = (st', Except.error e)) :
    st'.manuscriptSnippets = st.manuscriptSnippets ∧
    st'.manuscriptMetadata = st.manuscriptMetadata ∧
    st'.fullManuscriptText = st.fullManuscriptText ∧
    st'.documentChunks = st.documentChunks ∧
    (st'.currentPdfBase64 = st.currentPdfBase64 ∨
     st'.currentPdfBase64 = some pdf) := by
  unfold extractAxioms at h
  split at h
  · simp only [Prod.mk.injEq] at h
    obtain ⟨h1, -⟩ := h
    rw [← h1]
    exact ⟨rfl, rfl, rfl, rfl, Or.inl rfl⟩
  · split at h
    · simp only [Prod.mk.injEq] at h
      obtain ⟨h1, -⟩ := h
      rw [← h1]
      exact ⟨rfl, rfl, rfl, rfl, Or.inr rfl⟩
    · split at h
      · simp only [Prod.mk.injEq] at h
        obtain ⟨h1, -⟩ := h
        rw [← h1]
        exact ⟨rfl, rfl, rfl, rfl, Or.inr rfl⟩
      · split at h
        · simp only [Prod.mk.injEq] at h
          obtain ⟨h1, -⟩ := h
          rw [← h1]
          exact ⟨rfl, rfl, rfl, rfl, Or.inr rfl⟩
        · simp at h

set_option maxRecDepth 10000 in
/-- Witness for `extract_failure_state` at the concrete failing run. -/
theorem extract_failure_state_witness :
    (extractAxioms c2st c2pdf c2env).1.documentChunks = c2st.documentChunks ∧
    ((extractAxioms c2st c2pdf c2env).1.currentPdfBase64 = c2st.currentPdfBase64 ∨
     (extractAxioms c2st c2pdf c2env).1.currentPdfBase64 = some c2pdf) := by
  have h := extract_failure_state c2st c2pdf c2env
    (extractAxioms c2st c2pdf c2env).1 ExtractError.failedToParseJson rfl
  exact ⟨h.2.2.2.1, h.2.2.2.2⟩

/-! ## Preview truncation (claim C5) -/

/-- Claim C5, counterexample: at exactly 20000 characters the source
condition `nativeText.length > 20000` is false, so the preview is the
whole transcript with NO truncation marker -- not the first 20000
characters plus a marker that the claim describes. -/
theorem preview_truncation_counterexample :
    textPreview c5cexText = c5cexText ∧
    textPreview c5cexText ≠ c5cexText.take 20000 ++ str ("...(truncated)") := by
  have hlen : c5cexText.length = 20000 := by
    show (List.replicate 20000 'a').length = 20000
    rw [List.length_replicate]
  have h1 : textPreview c5cexText = c5cexText := by
    unfold textPreview
    rw [if_neg (by rw [hlen]; omega)]
  refine ⟨h1, ?_⟩
  intro hEq
  rw [h1] at hEq
  have hL := congrArg List.length hEq
  have h14 : (str ("...(truncated)")).length = 14 := by decide
  rw [List.length_append, List.length_take, hlen, h14] at hL
  omega

/-- Claim C5 (amended): the preview inlined into the extraction prompt
is truncated to the first 20000 characters plus the marker only for
transcripts STRICTLY longer than 20000 characters; at 20000 characters
or fewer the whole transcript is inlined unmarked.  In either case, on a
successful extraction whose transcript has trimmed length above 500, the
stored chunk sequence is derived from the full untruncated transcript. -/
theorem preview_truncation_amended (st : DocState) (pdf : List Char)
    (env : ExtractEnv) (st' : DocState) (ax : List AxiomItem) :
    (20000 < env.nativeText.length →
      extractionPrompt env.nativeText =
        promptPrefix ++ (env.nativeText.take 20000 ++ str ("...(truncated)")) ++
          promptSuffix) ∧
    (env.nativeText.length ≤ 20000 →
      extractionPrompt env.nativeText =
        promptPrefix ++ env.nativeText ++ promptSuffix) ∧
    (extractAxioms st pdf env = (st', Except.ok ax) →
      500 < trimmedLen env.nativeText →
      st'.fullManuscriptText = env.nativeText ∧
      st'.documentChunks = chunkText env.nativeText 2500 400) := by
  refine ⟨?_, ?_, ?_⟩
  · intro h
    unfold extractionPrompt textPreview
    rw [if_pos h]
  · intro h
    unfold extractionPrompt textPreview
    rw [if_neg (by omega)]
  · intro h h500
    unfold extractAxioms at h
    split at h
    · simp at h
    · split at h
      · simp at h
      · split at h
        · simp at h
        · split at h
          · simp at h
          · simp only [Prod.mk.injEq] at h
            obtain ⟨h1, -⟩ := h
            rw [← h1]
            simp [commitState, h500]

set_option maxRecDepth 10000 in
/-- Witness for `preview_truncation_amended` at the concrete successful
run over a 600-letter transcript. -/
theorem preview_truncation_witness :
    extractionPrompt c5env.nativeText =
      promptPrefix ++ c5env.nativeText ++ promptSuffix ∧
    (extractAxioms c5st c2pdf c5env).1.fullManuscriptText = c5env.nativeText ∧
    (extractAxioms c5st c2pdf c5env).1.documentChunks =
      chunkText c5env.nativeText 2500 400 := by
  have h := preview_truncation_amended c5st c2pdf c5env
    (extractAxioms c5st c2pdf c5env).1 []
  have hok : extractAxioms c5st c2pdf c5env =
      ((extractAxioms c5st c2pdf c5env).1, Except.ok []) := rfl
  have hc := h.2.2 hok (by decide)
  exact ⟨h.2.1 (by decide), hc.1, hc.2⟩

/-! ## Chat prompt template choice (claim C10) -/

/-- Claim C10: whenever the stored chunk sequence is non-empty the chat
orchestrator builds the grounded template (structural map plus the
retrieved chunks joined by the separator) -- the retriever's fallback
guarantees a non-empty retrieval -- and the structure-only template is
built exactly when the chunk sequence is empty. -/
theorem chat_prompt_template (st : DocState) (userPrompt : List Char) :
    (st.documentChunks ≠ [] →
      augmentedPromptFor st userPrompt =
        groundedPrompt userPrompt
          (retrieveRelevantChunks userPrompt st.documentChunks 15)
          st.manuscriptMetadata.chapters) ∧
    (st.documentChunks = [] →
      augmentedPromptFor st userPrompt =
        structureOnlyPrompt userPrompt st.manuscriptMetadata.chapters) := by
  constructor
  · intro h
    unfold augmentedPromptFor
    rw [if_pos]
    exact List.length_pos.2
      (retrieveRelevantChunks_ne_nil userPrompt st.documentChunks 15 h (by omega))
  · intro h
    unfold augmentedPromptFor
    rw [h]
    rw [if_neg]
    intro hpos
    have : retrieveRelevantChunks userPrompt [] 15 = [] := rfl
    rw [this] at hpos
    simp at hpos

/-- Witness for `chat_prompt_template` at a state with one stored chunk
and at a state with none. -/
theorem chat_prompt_template_witness :
    augmentedPromptFor c10st (str ("question")) =
      groundedPrompt (str ("question"))
        (retrieveRelevantChunks (str ("question")) c10st.documentChunks 15)
        c10st.manuscriptMetadata.chapters ∧
    augmentedPromptFor c5st (str ("question")) =
      structureOnlyPrompt (str ("question")) c5st.manuscriptMetadata.chapters :=
  ⟨(chat_prompt_template c10st (str ("question"))).1 (by decide),
   (chat_prompt_template c5st (str ("question"))).2 rfl⟩

end Sanctuary
